import Mathlib

set_option maxRecDepth 8192

/-!
Shallow embedding of the Visit Cesenatico chat application
(app/routes/home.tsx, tool-augmented variant and today-events variant).

Text is modelled as `List Char` (one entry per JS code point); JS strings
that only serve as map keys or values are modelled as `String`.
-/

namespace Cesenatico

/-- Whitespace test used to model `String.prototype.trim` (the common
whitespace characters; enough because the source strings at issue only
use ASCII whitespace). -/
def isWS (c : Char) : Bool :=
  c = ' ' || c = '\t' || c = '\n' || c = '\r' || c = '\x0b' || c = '\x0c'

/-- Drop leading JS whitespace (the leading half of `trim`). -/
def dropLeadingWS (l : List Char) : List Char := l.dropWhile isWS

/-- Drop trailing JS whitespace (the trailing half of `trim`). -/
def dropTrailingWS (l : List Char) : List Char := (l.reverse.dropWhile isWS).reverse

/-- Model of JS `s.trim()`: remove whitespace from both ends. -/
def jsTrim (l : List Char) : List Char := dropLeadingWS (dropTrailingWS l)

/-- Fuel-indexed worker for `stripTags`; structural recursion on the fuel
keeps the function kernel-computable. With fuel at least the list length
the fuel never runs out (see `stripTagsFuel_irrel`). -/
def stripTagsFuel : Nat → List Char → List Char
  | 0, l => l
  | _ + 1, [] => []
  | fuel + 1, c :: rest =>
    if c = '<' then
      match rest.dropWhile (fun x => x != '>') with
      | [] => c :: rest
      | _ :: after => stripTagsFuel fuel after
    else
      c :: stripTagsFuel fuel rest

/-- Model of JS `s.replace(/<[^>]*>/g, '')` from `formatEventsForContext`:
each maximal match runs from a `<` to the first `>` after it; a `<` with no
later `>` matches nothing, and then no later character can start a match. -/
def stripTags (l : List Char) : List Char := stripTagsFuel l.length l

/-- The ellipsis marker `"..."` appended by every description shaper. -/
def ellipsis : List Char := ['.', '.', '.']

/-- Characters of the JS coercion `String(undefined) = "undefined"`. -/
def undefinedChars : List Char := ['u', 'n', 'd', 'e', 'f', 'i', 'n', 'e', 'd']

/-- Description shaping used in the `cerca_*` tools on a present description:
`descrizione.substring(0, 300) + "..."` (marker appended unconditionally). -/
def descShape300 (s : List Char) : List Char := s.take 300 ++ ellipsis

/-- Description shaping of the `cerca_*` tools including the optional-chaining
step: `e.descrizione?.substring(0, 300) + "..."`; when `descrizione` is
absent the JS `+` coerces `undefined` to the string `"undefined"`. -/
def shapeDescrOpt (d : Option (List Char)) : List Char :=
  match d with
  | none => undefinedChars ++ ellipsis
  | some s => descShape300 s

/-- The trimmed, markup-stripped text that `formatEventsForContext` truncates:
`event.descrizione.replace(/<[^>]*>/g, '').trim().substring(0, 200)`. -/
def shapePlain (d : List Char) : List Char := (jsTrim (stripTags d)).take 200

/-- Description shaping in `formatEventsForContext`:
`plainDesc` followed by `'...'` exactly when `plainDesc.length >= 200`. -/
def shapeFormatDesc (d : List Char) : List Char :=
  shapePlain d ++ (if 200 ≤ (shapePlain d).length then ellipsis else [])

/-- String-level wrapper of `shapeFormatDesc`. -/
def shapeFormatDescS (s : String) : String := (shapeFormatDesc s.toList).asString

/-- JS truthiness of an optional string: `undefined` and `""` are falsy. -/
def jsTruthyS (o : Option String) : Bool :=
  match o with
  | none => false
  | some s => !(s == "")

/-- JS `limit || 10`: `undefined` and `0` are falsy and fall back to `10`;
every other number (including negatives) is kept. JS numbers that reach
this expression are modelled as integers. -/
def limitOr10 (l : Option Int) : Int :=
  match l with
  | none => 10
  | some n => if n = 0 then 10 else n

/-- Emit one query parameter from an optional string argument, guarded by JS
truthiness, as in `if (x) { params[key] = x; }`. -/
def strOptParam (key : String) (v : Option String) : List (String × String) :=
  match v with
  | none => []
  | some s => if s = "" then [] else [(key, s)]

/-- The two `$or` parameters emitted for a truthy `searchText`. -/
def searchTextParams (v : Option String) : List (String × String) :=
  match v with
  | none => []
  | some s =>
    if s = "" then []
    else
      [("filters[$or][0][titolo][$containsi]", s),
       ("filters[$or][1][descrizione][$containsi]", s)]

/-- The `gratuito` parameter, emitted for any non-`undefined` value
(`if (gratuito !== undefined)`), with JS `String(bool)` as the value. -/
def gratuitoParam (v : Option Bool) : List (String × String) :=
  match v with
  | none => []
  | some b => [("filters[gratuito][$eq]", if b then "true" else "false")]

/-- Arguments of the `cerca_eventi` tool. -/
structure CercaEventiArgs where
  dataInizio : Option String := none
  dataFine : Option String := none
  searchText : Option String := none
  gratuito : Option Bool := none
  limit : Option Int := none

/-- Query parameters built by `cerca_eventi.execute`. -/
def cercaEventiParams (a : CercaEventiArgs) : List (String × String) :=
  [("populate[categoria_evento]", "true"),
   ("populate[cover]", "true"),
   ("pagination[pageSize]", toString (limitOr10 a.limit)),
   ("sort", "dataInizio:asc")]
  ++ strOptParam "filters[dataInizio][$gte]" a.dataInizio
  ++ strOptParam "filters[dataFine][$lte]" a.dataFine
  ++ searchTextParams a.searchText
  ++ gratuitoParam a.gratuito

/-- Arguments of the `cerca_experiences` tool. -/
structure CercaExperiencesArgs where
  searchText : Option String := none
  categoria : Option String := none
  tipologia : Option String := none
  gratuito : Option Bool := none
  limit : Option Int := none

/-- Query parameters built by `cerca_experiences.execute`. -/
def cercaExperiencesParams (a : CercaExperiencesArgs) : List (String × String) :=
  [("populate[categoria_cosafare]", "true"),
   ("populate[tipologia_experience]", "true"),
   ("populate[cover]", "true"),
   ("filters[attiva][$eq]", "true"),
   ("pagination[pageSize]", toString (limitOr10 a.limit))]
  ++ searchTextParams a.searchText
  ++ strOptParam "filters[categoria_cosafare][titolo][$containsi]" a.categoria
  ++ strOptParam "filters[tipologia_experience][titolo][$containsi]" a.tipologia
  ++ gratuitoParam a.gratuito

/-- Arguments of the `cerca_punti_interesse` tool. -/
structure CercaPoiArgs where
  searchText : Option String := none
  categoria : Option String := none
  limit : Option Int := none

/-- Query parameters built by `cerca_punti_interesse.execute`. -/
def cercaPuntiInteresseParams (a : CercaPoiArgs) : List (String × String) :=
  [("populate[categoria_esplora]", "true"),
   ("populate[cover]", "true"),
   ("pagination[pageSize]", toString (limitOr10 a.limit))]
  ++ searchTextParams a.searchText
  ++ strOptParam "filters[categoria_esplora][titolo][$containsi]" a.categoria

/-- Arguments of the `cerca_strutture` tool. -/
structure CercaStruttureArgs where
  searchText : Option String := none
  categoria : Option String := none
  limit : Option Int := none

/-- Query parameters built by `cerca_strutture.execute`. -/
def cercaStruttureParams (a : CercaStruttureArgs) : List (String × String) :=
  [("populate[categoria_struttura]", "true"),
   ("populate[tipologia_struttura]", "true"),
   ("populate[cover]", "true"),
   ("filters[attiva][$eq]", "true"),
   ("pagination[pageSize]", toString (limitOr10 a.limit))]
  ++ searchTextParams a.searchText
  ++ strOptParam "filters[categoria_struttura][titolo][$containsi]" a.categoria

/-- Arguments of the `cerca_offerte` tool. -/
structure CercaOfferteArgs where
  searchText : Option String := none
  dataInizio : Option String := none
  dataFine : Option String := none
  limit : Option Int := none

/-- Query parameters built by `cerca_offerte.execute`. -/
def cercaOfferteParams (a : CercaOfferteArgs) : List (String × String) :=
  [("populate[categoria_offerta]", "true"),
   ("populate[struttura]", "true"),
   ("populate[cover]", "true"),
   ("filters[attiva][$eq]", "true"),
   ("pagination[pageSize]", toString (limitOr10 a.limit))]
  ++ searchTextParams a.searchText
  ++ strOptParam "filters[disponibileInizio][$lte]" a.dataInizio
  ++ strOptParam "filters[disponibileFine][$gte]" a.dataFine

/-- Query parameters of the today-events variant (`fetchTodayEvents`): the
URL hard-codes `dataInizio <= today` and `dataFine >= today`. -/
def fetchTodayEventsParams (today : String) : List (String × String) :=
  [("filters[dataInizio][$lte]", today),
   ("filters[dataFine][$gte]", today),
   ("pagination[limit]", "50")]

/-- Lexicographic comparison of character lists; on equal-length ISO
`YYYY-MM-DD` strings it coincides with chronological order. -/
def lexLe : List Char → List Char → Bool
  | [], _ => true
  | _ :: _, [] => false
  | a :: as, b :: bs => if a = b then lexLe as bs else decide (a < b)

/-- Date comparison used to give semantics to Strapi `$gte`/`$lte` filters. -/
def dateLe (a b : String) : Bool := lexLe a.toList b.toList

/-- Record fields an emitted eventi filter can look at. -/
structure EventoFields where
  titolo : String
  descrizione : String
  dataInizio : String
  dataFine : String

/-- Modelled from the spec: the CMS itself is external, so Strapi comparison
filters are interpreted per the documented contract
(`filters[field][$gte]=v` selects `v <= record.field`, `$lte` dually);
parameters other than the four date filters are ignored here. -/
def dateParamHolds (r : EventoFields) (p : String × String) : Bool :=
  if p.1 = "filters[dataInizio][$gte]" then dateLe p.2 r.dataInizio
  else if p.1 = "filters[dataInizio][$lte]" then dateLe r.dataInizio p.2
  else if p.1 = "filters[dataFine][$gte]" then dateLe p.2 r.dataFine
  else if p.1 = "filters[dataFine][$lte]" then dateLe r.dataFine p.2
  else true

/-- A record passes the date portion of an emitted parameter set iff
every date filter in the list holds of it (Strapi filters conjoin). -/
def matchesDateFilters (ps : List (String × String)) (r : EventoFields) : Bool :=
  ps.all (dateParamHolds r)

/-- The spec's window-overlap predicate, written from the spec's words:
`record.start <= endDate AND record.end >= startDate`. -/
def overlapsWindow (s e : String) (r : EventoFields) : Bool :=
  dateLe r.dataInizio e && dateLe s r.dataFine

/-- Lowercase character list of a string, for case-insensitive matching. -/
def lowerList (s : String) : List Char := s.toList.map Char.toLower

/-- Substring test on character lists. -/
def isSubList (n : List Char) : List Char → Bool
  | [] => n.isEmpty
  | c :: t => n.isPrefixOf (c :: t) || isSubList n t

/-- Modelled from the spec: Strapi `$containsi`, case-insensitive substring
containment of the needle in the field value. -/
def containsiB (hay needle : String) : Bool :=
  isSubList (lowerList needle) (lowerList hay)

/-- Modelled from the spec: interpretation of one `$or` branch parameter as
emitted by the builders; other keys are not search branches. -/
def orBranchHolds (r : EventoFields) (p : String × String) : Option Bool :=
  if p.1 = "filters[$or][0][titolo][$containsi]" then some (containsiB r.titolo p.2)
  else if p.1 = "filters[$or][1][descrizione][$containsi]" then some (containsiB r.descrizione p.2)
  else none

/-- Modelled from the spec: a record passes the `$or` group iff some branch
matches; with no `$or` parameters the group imposes no constraint. -/
def matchesSearchFilters (ps : List (String × String)) (r : EventoFields) : Bool :=
  ((ps.filterMap (orBranchHolds r)).isEmpty) || (ps.filterMap (orBranchHolds r)).any id

/-- Outcome of one HTTP exchange with the CMS: either a completed response
with a status code and parsed body, or a thrown transport failure. -/
inductive CmsOutcome (α : Type) where
  | response (status : Nat) (body : α)
  | transportFailure (msg : String)

/-- JS `response.ok`: status in the 2xx range. -/
def responseOk (status : Nat) : Bool := 200 ≤ status && status ≤ 299

/-- Model of `strapiQuery` (tool-augmented variant): a non-2xx response
throws `Error("Strapi API error: " + status)`; a transport failure
propagates as thrown; a 2xx response yields the parsed body. -/
def strapiQueryM {α : Type} : CmsOutcome α → Except String α
  | .transportFailure m => .error m
  | .response st body =>
    if responseOk st then .ok body
    else .error ("Strapi API error: " ++ toString st)

/-- Raw CMS event of the today-events variant (`StrapiEvent` in the source);
string fields may be absent. -/
structure StrapiEvent where
  titolo : String := ""
  descrizione : Option String := none
  dataInizio : Option String := none
  dataFine : Option String := none
  localita : Option String := none
  gratuito : Option Bool := none
  prezzo : Option String := none
  linkUrl : Option String := none

/-- Model of `fetchTodayEvents` (today-events variant): a non-2xx response
returns `[]`, a transport failure is caught and returns `[]`, and a 2xx
response returns `data.data || []`. -/
def fetchTodayEventsM : CmsOutcome (Option (List StrapiEvent)) → List StrapiEvent
  | .transportFailure _ => []
  | .response st body => if responseOk st then body.getD [] else []

/-- One numbered event block of `formatEventsForContext`; `idx` is the
zero-based position, printed as `idx + 1`. -/
def eventBlock (idx : Nat) (e : StrapiEvent) : String :=
  toString (idx + 1) ++ ". **" ++ e.titolo ++ "**\n"
  ++ (if jsTruthyS e.descrizione then
        "   " ++ shapeFormatDescS (e.descrizione.getD "") ++ "\n"
      else "")
  ++ (if jsTruthyS e.localita then
        "   📍 Località: " ++ e.localita.getD "" ++ "\n"
      else "")
  ++ (if jsTruthyS e.dataInizio && jsTruthyS e.dataFine then
        "   📆 Dal " ++ e.dataInizio.getD "" ++ " al " ++ e.dataFine.getD "" ++ "\n"
      else "")
  ++ (if e.gratuito = some true then "   🎟️ Gratuito\n"
      else if jsTruthyS e.prezzo then "   🎟️ Prezzo: " ++ e.prezzo.getD "" ++ "\n"
      else "")
  ++ (if jsTruthyS e.linkUrl then "   🔗 " ++ e.linkUrl.getD "" ++ "\n" else "")
  ++ "\n"

/-- Model of `formatEventsForContext`; the formatted current date, produced
impurely in the source, is passed in as `today`. -/
def formatEventsForContext (today : String) (events : List StrapiEvent) : String :=
  if events.isEmpty then "Non ci sono eventi in programma per oggi."
  else
    "📅 Eventi di oggi (" ++ today ++ ") a Cesenatico:\n\n"
    ++ String.join (events.enum.map (fun p => eventBlock p.1 p.2))

/-- A tool call requested by the model in one step. -/
structure ToolCallRec where
  toolName : String

/-- One model invocation's visible result: its text and requested calls. -/
structure ModelStep where
  text : String
  toolCalls : List ToolCallRec

/-- Modelled from the spec: the multi-step loop of the Conversation
Orchestrator lives in the external ai-sdk `generateText`, not in this
repository; this follows the spec's state machine. `fuel` is the number of
model invocations still allowed, `done` the number already made, `lastText`
the text available so far. When the step count reaches the cap the loop
force-terminates with the last available text; a response with no tool
calls terminates with that response's text. -/
def orchSteps (model : Nat → ModelStep) : Nat → Nat → String → String × Nat
  | 0, done, lastText => (lastText, done)
  | fuel + 1, done, _ =>
    let r := model done
    if r.toolCalls.isEmpty then (r.text, done + 1)
    else orchSteps model fuel (done + 1) r.text

/-- Modelled from the spec: run the orchestrator with a step cap; returns
the final text and the number of model invocations made. -/
def runOrchestrator (model : Nat → ModelStep) (maxSteps : Nat) : String × Nat :=
  orchSteps model maxSteps 0 ""

/-- A value thrown by JS code: an `Error` instance carrying a message, or
any other thrown value. -/
inductive JsThrown where
  | errorObj (message : String)
  | nonError

/-- The diagnostic string placed in the response `error` field:
`error instanceof Error ? error.message : "Unknown error"`. -/
def errMessage : JsThrown → String
  | .errorObj m => m
  | .nonError => "Unknown error"

/-- HTTP response of the chat action, as seen by the client. -/
structure ActionResponse where
  status : Nat
  text : String
  toolCalls : List ToolCallRec
  error : Option String

/-- Model of the `action` response logic (tool-augmented variant): on
success, `Response.json({text, toolCalls})` with the default 200 status; in
the catch branch, a fixed Italian fallback text, empty tool calls, the
extracted diagnostic string, and status 500. -/
def actionResult : Except JsThrown (String × List ToolCallRec) → ActionResponse
  | .ok (t, tcs) => { status := 200, text := t, toolCalls := tcs, error := none }
  | .error e =>
    { status := 500,
      text := "Mi dispiace, si è verificato un errore. Riprova.",
      toolCalls := [],
      error := some (errMessage e) }

/-- Raw eventi record fields used by the `cerca_eventi` response shaping. -/
structure EventoRaw where
  titolo : List Char
  descrizione : Option (List Char)

/-- Raw POI record fields used by `cerca_punti_interesse` shaping. -/
structure PoiRaw where
  titolo : List Char
  descrizione : Option (List Char)

/-- A shaped record as returned to the model by the search tools. -/
structure ShapedItem where
  titolo : List Char
  descrizione : List Char

/-- Shaping of one event in `cerca_eventi.execute`. -/
def shapeEvento (e : EventoRaw) : ShapedItem :=
  { titolo := e.titolo, descrizione := shapeDescrOpt e.descrizione }

/-- Shaping of one POI in `cerca_punti_interesse.execute`. -/
def shapePoi (p : PoiRaw) : ShapedItem :=
  { titolo := p.titolo, descrizione := shapeDescrOpt p.descrizione }

/-- Text on which the tag-stripping regex finds no match: after the first
`<`, no `>` occurs. `stripTags` is the identity exactly on such text. -/
def Clean : List Char → Prop
  | [] => True
  | c :: rest => if c = '<' then '>' ∉ rest else Clean rest

/-! ### Helper lemmas about dropWhile, trimming and tag stripping -/

theorem dropWhile_idem (p : Char → Bool) (l : List Char) :
    (l.dropWhile p).dropWhile p = l.dropWhile p := by
  induction l with
  | nil => rfl
  | cons a t ih =>
    by_cases h : p a = true
    · rw [List.dropWhile_cons_of_pos h]; exact ih
    · rw [List.dropWhile_cons_of_neg h, List.dropWhile_cons_of_neg h]

theorem dropWhile_head_false {p : Char → Bool} {l : List Char} {a : Char}
    {u : List Char} (h : l.dropWhile p = a :: u) : p a = false := by
  induction l with
  | nil => simp at h
  | cons b t ih =>
    by_cases hb : p b = true
    · rw [List.dropWhile_cons_of_pos hb] at h; exact ih h
    · rw [List.dropWhile_cons_of_neg hb] at h
      cases h
      simpa using hb

theorem dropWhile_cons_false {p : Char → Bool} {a : Char} (u : List Char)
    (h : p a = false) : (a :: u).dropWhile p = a :: u :=
  List.dropWhile_cons_of_neg (by simp [h])

theorem dropWhile_eq_nil_of_all {p : Char → Bool} {l : List Char}
    (h : ∀ a ∈ l, p a = true) : l.dropWhile p = [] := by
  induction l with
  | nil => rfl
  | cons a t ih =>
    rw [List.dropWhile_cons_of_pos (h a (by simp))]
    exact ih (fun x hx => h x (by simp [hx]))

theorem all_of_dropWhile_eq_nil {p : Char → Bool} {l : List Char}
    (h : l.dropWhile p = []) : ∀ a ∈ l, p a = true := by
  induction l with
  | nil => simp
  | cons a t ih =>
    by_cases ha : p a = true
    · rw [List.dropWhile_cons_of_pos ha] at h
      intro x hx
      rcases List.mem_cons.1 hx with hx | hx
      · rw [hx]; exact ha
      · exact ih h x hx
    · rw [List.dropWhile_cons_of_neg ha] at h
      simp at h

theorem dropTrailingWS_dropLeadingWS (l : List Char) :
    dropTrailingWS (dropLeadingWS (dropTrailingWS l))
      = dropLeadingWS (dropTrailingWS l) := by
  set m := dropTrailingWS l with hm
  have hrev : m.reverse = l.reverse.dropWhile isWS := by
    rw [hm, dropTrailingWS, List.reverse_reverse]
  rcases hdl : dropLeadingWS m with _ | ⟨a, u⟩
  · simp [dropTrailingWS, hdl]
  · rcases hr : (dropLeadingWS m).reverse with _ | ⟨b, v⟩
    · rw [hdl] at hr; simp at hr
    · have hmem : m = m.takeWhile isWS ++ dropLeadingWS m := by
        rw [dropLeadingWS, List.takeWhile_append_dropWhile]
      have hrevm : m.reverse = (dropLeadingWS m).reverse ++ (m.takeWhile isWS).reverse := by
        conv_lhs => rw [hmem]
        rw [List.reverse_append]
      have hbv : m.reverse = b :: (v ++ (m.takeWhile isWS).reverse) := by
        rw [hrevm, hr]; simp
      have hb : isWS b = false := by
        rw [hrev] at hbv
        exact dropWhile_head_false hbv
      have h1 : (a :: u).reverse = b :: v := by rw [← hdl, hr]
      rw [dropTrailingWS, h1, dropWhile_cons_false _ hb, ← h1, List.reverse_reverse]

theorem jsTrim_idem (l : List Char) : jsTrim (jsTrim l) = jsTrim l := by
  rw [jsTrim, jsTrim, dropTrailingWS_dropLeadingWS, dropLeadingWS, dropLeadingWS,
    dropWhile_idem]

theorem clean_of_not_mem_lt {l : List Char} (h : '<' ∉ l) : Clean l := by
  induction l with
  | nil => trivial
  | cons c t ih =>
    have hc : c ≠ '<' := fun hc => h (by simp [hc])
    simpa [Clean, hc] using ih (fun hm => h (by simp [hm]))

theorem clean_of_not_mem_gt {l : List Char} (h : '>' ∉ l) : Clean l := by
  induction l with
  | nil => trivial
  | cons c t ih =>
    by_cases hc : c = '<'
    · simp only [Clean, hc, if_pos rfl]
      exact fun hm => h (by simp [hm])
    · simpa [Clean, hc] using ih (fun hm => h (by simp [hm]))

theorem clean_append_left {p s : List Char} (h : Clean (p ++ s)) : Clean p := by
  induction p with
  | nil => trivial
  | cons c t ih =>
    by_cases hc : c = '<'
    · simp only [List.cons_append, Clean, hc, if_pos rfl] at h ⊢
      exact fun hm => h (by simp [hm])
    · simp only [List.cons_append, Clean, hc, if_neg hc] at h ⊢
      exact ih h

theorem clean_append_right {p s : List Char} (h : Clean (p ++ s)) : Clean s := by
  induction p with
  | nil => simpa using h
  | cons c t ih =>
    by_cases hc : c = '<'
    · simp only [List.cons_append, Clean, hc, if_pos rfl] at h
      exact clean_of_not_mem_gt (fun hm => h (by simp [hm]))
    · simp only [List.cons_append, Clean, if_neg hc] at h
      exact ih h

theorem clean_append {l m : List Char} (hl : Clean l) (hlt : '<' ∉ m)
    (hgt : '>' ∉ m) : Clean (l ++ m) := by
  induction l with
  | nil => simpa using clean_of_not_mem_lt hlt
  | cons c t ih =>
    by_cases hc : c = '<'
    · simp only [Clean, hc, if_pos rfl] at hl
      simp only [List.cons_append, Clean, hc, if_pos rfl]
      intro hm
      rcases List.mem_append.1 hm with hm | hm
      · exact hl hm
      · exact hgt hm
    · simp only [Clean, if_neg hc] at hl
      simp only [List.cons_append, Clean, if_neg hc]
      exact ih hl

theorem clean_take {l : List Char} (n : Nat) (h : Clean l) : Clean (l.take n) := by
  have := List.take_append_drop n l
  exact clean_append_left (this ▸ h)

theorem clean_dropTrailingWS {l : List Char} (h : Clean l) :
    Clean (dropTrailingWS l) := by
  have hsplit : l = dropTrailingWS l ++ (l.reverse.takeWhile isWS).reverse := by
    conv_lhs => rw [← List.reverse_reverse l,
      ← List.takeWhile_append_dropWhile (p := isWS) (l := l.reverse)]
    rw [List.reverse_append, dropTrailingWS]
  exact clean_append_left (hsplit ▸ h)

theorem clean_dropLeadingWS {l : List Char} (h : Clean l) :
    Clean (dropLeadingWS l) := by
  have hsplit : l = l.takeWhile isWS ++ dropLeadingWS l := by
    rw [dropLeadingWS, List.takeWhile_append_dropWhile]
  exact clean_append_right (hsplit ▸ h)

theorem clean_jsTrim {l : List Char} (h : Clean l) : Clean (jsTrim l) :=
  clean_dropLeadingWS (clean_dropTrailingWS h)

theorem stripTagsFuel_irrel : ∀ (f1 : Nat) (l : List Char), l.length ≤ f1 → ∀ f2, l.length ≤ f2 →
    stripTagsFuel f1 l = stripTagsFuel f2 l := by
  intro f1
  induction f1 with
  | zero =>
    intro l hl f2 _
    have hnil : l = [] := List.eq_nil_of_length_eq_zero (Nat.le_zero.1 hl)
    subst hnil
    cases f2 <;> rfl
  | succ g1 ih =>
    intro l hl f2 hl2
    cases l with
    | nil => cases f2 <;> rfl
    | cons c rest =>
      cases f2 with
      | zero => simp at hl2
      | succ g2 =>
        simp only [List.length_cons] at hl hl2
        by_cases hc : c = '<'
        · rw [stripTagsFuel, if_pos hc, stripTagsFuel, if_pos hc]
          rcases hdw : rest.dropWhile (fun x => x != '>') with _ | ⟨y, after⟩
          · rfl
          · have hlen : after.length + 1 ≤ rest.length := by
              have h1 : (rest.dropWhile (fun x => x != '>')).length ≤ rest.length :=
                (List.dropWhile_sublist _).length_le
              rw [hdw] at h1
              simpa using h1
            exact ih after (by omega) g2 (by omega)
        · rw [stripTagsFuel, if_neg hc, stripTagsFuel, if_neg hc,
            ih rest (by omega) g2 (by omega)]

theorem stripTags_cons (c : Char) (rest : List Char) :
    stripTags (c :: rest)
      = if c = '<' then
          match rest.dropWhile (fun x => x != '>') with
          | [] => c :: rest
          | _ :: after => stripTags after
        else c :: stripTags rest := by
  rw [stripTags, List.length_cons, stripTagsFuel]
  by_cases hc : c = '<'
  · rw [if_pos hc, if_pos hc]
    rcases hdw : rest.dropWhile (fun x => x != '>') with _ | ⟨y, after⟩
    · rfl
    · have hlen : after.length + 1 ≤ rest.length := by
        have h1 : (rest.dropWhile (fun x => x != '>')).length ≤ rest.length :=
          (List.dropWhile_sublist _).length_le
        rw [hdw] at h1
        simpa using h1
      exact stripTagsFuel_irrel rest.length after (by omega) after.length (Nat.le_refl _)
  · rw [if_neg hc, if_neg hc]
    rfl

theorem stripTags_of_clean {l : List Char} (h : Clean l) : stripTags l = l := by
  induction l with
  | nil => rfl
  | cons c t ih =>
    by_cases hc : c = '<'
    · simp only [Clean, hc, if_pos rfl] at h
      have hdw : t.dropWhile (fun x => x != '>') = [] := by
        apply dropWhile_eq_nil_of_all
        intro a ha
        have : a ≠ '>' := fun hgt => h (hgt ▸ ha)
        simpa using this
      rw [stripTags_cons, if_pos hc, hdw]
    · simp only [Clean, if_neg hc] at h
      rw [stripTags_cons, if_neg hc, ih h]

theorem clean_stripTags_aux (n : Nat) : ∀ l : List Char, l.length ≤ n → Clean (stripTags l) := by
  induction n with
  | zero =>
    intro l hl
    have hnil : l = [] := List.eq_nil_of_length_eq_zero (Nat.le_zero.1 hl)
    subst hnil
    trivial
  | succ n ih =>
    intro l hl
    match l with
    | [] => trivial
    | c :: rest =>
      by_cases hc : c = '<'
      · rw [stripTags_cons, if_pos hc]
        split
        · rename_i heq
          subst hc
          simp only [Clean, if_pos rfl]
          intro hm
          have := all_of_dropWhile_eq_nil heq '>' hm
          simp at this
        · rename_i y after heq
          apply ih after
          have h1 : (rest.dropWhile (fun x => x != '>')).length ≤ rest.length :=
            (List.dropWhile_sublist _).length_le
          rw [heq] at h1
          simp only [List.length_cons] at h1 hl
          omega
      · rw [stripTags_cons, if_neg hc]
        simp only [Clean, if_neg hc]
        apply ih rest
        simp only [List.length_cons] at hl
        omega

theorem clean_stripTags (l : List Char) : Clean (stripTags l) :=
  clean_stripTags_aux l.length l (Nat.le_refl _)

theorem shapeFormatDesc_short {d : List Char}
    (h : (jsTrim (stripTags d)).length < 200) :
    shapeFormatDesc d = jsTrim (stripTags d) := by
  have hp : shapePlain d = jsTrim (stripTags d) := by
    rw [shapePlain, List.take_of_length_le (Nat.le_of_lt h)]
  rw [shapeFormatDesc, hp, if_neg (by omega), List.append_nil]

theorem shapePlain_length_long {d : List Char}
    (h : 200 ≤ (jsTrim (stripTags d)).length) :
    (shapePlain d).length = 200 := by
  rw [shapePlain, List.length_take]
  omega

theorem shapeFormatDesc_long {d : List Char}
    (h : 200 ≤ (jsTrim (stripTags d)).length) :
    shapeFormatDesc d = (jsTrim (stripTags d)).take 200 ++ ellipsis := by
  rw [shapeFormatDesc, if_pos (by rw [shapePlain_length_long h])]
  rfl

theorem clean_shapePlain (d : List Char) : Clean (shapePlain d) :=
  clean_take _ (clean_jsTrim (clean_stripTags d))

theorem ellipsis_no_angle : '<' ∉ ellipsis ∧ '>' ∉ ellipsis := by decide

theorem jsTrim_fixed_of_ends {a : Char} {t : List Char}
    (ha : isWS a = false) {b : Char}
    (hb : isWS b = false) (hlast : (a :: t).getLast? = some b) :
    jsTrim (a :: t) = a :: t := by
  have hrev : (a :: t).reverse = b :: ((a :: t).reverse.tail) := by
    have h1 : (a :: t).reverse.head? = some b := by
      rw [List.head?_reverse]
      exact hlast
    rcases hr : (a :: t).reverse with _ | ⟨x, xs⟩
    · simp [hr] at h1
    · rw [hr] at h1
      simp only [List.head?_cons, Option.some.injEq] at h1
      simp [h1]
  have hdt : dropTrailingWS (a :: t) = a :: t := by
    rw [dropTrailingWS, hrev, dropWhile_cons_false _ hb, ← hrev, List.reverse_reverse]
  rw [jsTrim, hdt, dropLeadingWS, dropWhile_cons_false _ ha]

theorem head_of_jsTrim {l : List Char} {a : Char} {u : List Char}
    (h : jsTrim l = a :: u) : isWS a = false := by
  rw [jsTrim, dropLeadingWS] at h
  exact dropWhile_head_false h

theorem shapeFormatDesc_idem (d : List Char) :
    shapeFormatDesc (shapeFormatDesc d) = shapeFormatDesc d := by
  by_cases h : 200 ≤ (jsTrim (stripTags d)).length
  · -- long input: the output is plain.take 200 ++ ellipsis, a fixed point
    set t : List Char := (jsTrim (stripTags d)).take 200 with ht
    have htlen : t.length = 200 := by
      rw [ht, List.length_take]; omega
    have hclean_t : Clean t := clean_take _ (clean_jsTrim (clean_stripTags d))
    have hclean : Clean (t ++ ellipsis) :=
      clean_append hclean_t ellipsis_no_angle.1 ellipsis_no_angle.2
    have hstrip : stripTags (t ++ ellipsis) = t ++ ellipsis := stripTags_of_clean hclean
    rcases hcons : t with _ | ⟨a, t'⟩
    · rw [hcons] at htlen; simp at htlen
    · have hhead : isWS a = false := by
        have h2 : jsTrim (stripTags d)
            = a :: (t' ++ (jsTrim (stripTags d)).drop 200) := by
          conv_lhs => rw [← List.take_append_drop 200 (jsTrim (stripTags d))]
          rw [← ht, hcons, List.cons_append]
        exact head_of_jsTrim h2
      have hlast : ((a :: t') ++ ellipsis).getLast? = some '.' := by
        rw [List.getLast?_append]
        rfl
      have htrim : jsTrim (t ++ ellipsis) = t ++ ellipsis := by
        rw [hcons, List.cons_append]
        refine jsTrim_fixed_of_ends hhead (show isWS '.' = false from by decide) ?_
        rw [← List.cons_append]
        exact hlast
      have htake : (jsTrim (stripTags (t ++ ellipsis))).take 200 = t := by
        rw [hstrip, htrim, ← htlen, ht]
        exact List.take_left t ellipsis
      have hlong : 200 ≤ (jsTrim (stripTags (t ++ ellipsis))).length := by
        rw [hstrip, htrim, List.length_append, htlen]
        omega
      rw [shapeFormatDesc_long h, ← ht, shapeFormatDesc_long hlong, htake]
  · -- short input: the output is the trimmed stripped text, a fixed point
    have hshort : (jsTrim (stripTags d)).length < 200 := by omega
    rw [shapeFormatDesc_short hshort]
    have hclean : Clean (jsTrim (stripTags d)) := clean_jsTrim (clean_stripTags d)
    have hstrip : stripTags (jsTrim (stripTags d)) = jsTrim (stripTags d) :=
      stripTags_of_clean hclean
    have htrim : jsTrim (stripTags (jsTrim (stripTags d))) = jsTrim (stripTags d) := by
      rw [hstrip, jsTrim_idem]
    rw [shapeFormatDesc_short (by rw [htrim]; exact hshort), htrim]

/-! ### Helper lemmas about the emitted parameter lists -/

theorem filterMap_orBranch_strOpt (r : EventoFields) (key : String) (v : Option String)
    (h0 : key ≠ "filters[$or][0][titolo][$containsi]")
    (h1 : key ≠ "filters[$or][1][descrizione][$containsi]") :
    (strOptParam key v).filterMap (orBranchHolds r) = [] := by
  cases v with
  | none => rfl
  | some s =>
    by_cases hs : s = "" <;> simp [strOptParam, hs, orBranchHolds, h0, h1]

theorem filterMap_orBranch_gratuito (r : EventoFields) (v : Option Bool) :
    (gratuitoParam v).filterMap (orBranchHolds r) = [] := by
  cases v <;> simp [gratuitoParam, orBranchHolds]

theorem mem_strOptParam {kv : String × String} {key : String} {v : Option String}
    (h : kv ∈ strOptParam key v) : kv.1 = key ∧ v ≠ none := by
  cases v with
  | none => simp [strOptParam] at h
  | some s =>
    refine ⟨?_, by simp⟩
    by_cases hs : s = "" <;> simp [strOptParam, hs] at h
    rw [h]

theorem mem_searchTextParams {kv : String × String} {v : Option String}
    (h : kv ∈ searchTextParams v) :
    kv.1 = "filters[$or][0][titolo][$containsi]"
    ∨ kv.1 = "filters[$or][1][descrizione][$containsi]" := by
  cases v with
  | none => simp [searchTextParams] at h
  | some s =>
    by_cases hs : s = "" <;> simp [searchTextParams, hs] at h
    rcases h with h | h <;> [left; right] <;> rw [h]

theorem mem_gratuitoParam {kv : String × String} {v : Option Bool}
    (h : kv ∈ gratuitoParam v) : kv.1 = "filters[gratuito][$eq]" ∧ v ≠ none := by
  cases v with
  | none => simp [gratuitoParam] at h
  | some b => exact ⟨by simp [gratuitoParam] at h; rw [h], by simp⟩

theorem mem_cercaEventiParams_gratuito {w : String} {a : CercaEventiArgs} :
    ("filters[gratuito][$eq]", w) ∈ cercaEventiParams a
      ↔ ("filters[gratuito][$eq]", w) ∈ gratuitoParam a.gratuito := by
  constructor
  · intro h
    rw [cercaEventiParams] at h
    rcases List.mem_append.1 h with h | h
    · rcases List.mem_append.1 h with h | h
      · rcases List.mem_append.1 h with h | h
        · rcases List.mem_append.1 h with h | h
          · simp at h
          · have hk := (mem_strOptParam h).1
            simp at hk
        · have hk := (mem_strOptParam h).1
          simp at hk
      · rcases mem_searchTextParams h with h | h <;> simp at h
    · exact h
  · intro h
    rw [cercaEventiParams]
    exact List.mem_append.2 (Or.inr h)

theorem mem_cercaExperiencesParams_gratuito {w : String} {a : CercaExperiencesArgs} :
    ("filters[gratuito][$eq]", w) ∈ cercaExperiencesParams a
      ↔ ("filters[gratuito][$eq]", w) ∈ gratuitoParam a.gratuito := by
  constructor
  · intro h
    rw [cercaExperiencesParams] at h
    rcases List.mem_append.1 h with h | h
    · rcases List.mem_append.1 h with h | h
      · rcases List.mem_append.1 h with h | h
        · rcases List.mem_append.1 h with h | h
          · simp at h
          · rcases mem_searchTextParams h with h | h <;> simp at h
        · have hk := (mem_strOptParam h).1
          simp at hk
      · have hk := (mem_strOptParam h).1
        simp at hk
    · exact h
  · intro h
    rw [cercaExperiencesParams]
    exact List.mem_append.2 (Or.inr h)

theorem not_mem_cercaEventiParams_attiva (v : String) (a : CercaEventiArgs) :
    ("filters[attiva][$eq]", v) ∉ cercaEventiParams a := by
  intro h
  rw [cercaEventiParams] at h
  rcases List.mem_append.1 h with h | h
  · rcases List.mem_append.1 h with h | h
    · rcases List.mem_append.1 h with h | h
      · rcases List.mem_append.1 h with h | h
        · simp at h
        · have hk := (mem_strOptParam h).1
          simp at hk
      · have hk := (mem_strOptParam h).1
        simp at hk
    · rcases mem_searchTextParams h with h | h <;> simp at h
  · have hk := (mem_gratuitoParam h).1
    simp at hk

theorem not_mem_cercaPuntiInteresseParams_attiva (v : String) (a : CercaPoiArgs) :
    ("filters[attiva][$eq]", v) ∉ cercaPuntiInteresseParams a := by
  intro h
  rw [cercaPuntiInteresseParams] at h
  rcases List.mem_append.1 h with h | h
  · rcases List.mem_append.1 h with h | h
    · simp at h
    · rcases mem_searchTextParams h with h | h <;> simp at h
  · have hk := (mem_strOptParam h).1
    simp at hk

theorem not_mem_cercaEventiParams_or_of_none {a : CercaEventiArgs}
    (hst : a.searchText = none) (v : String) :
    ("filters[$or][0][titolo][$containsi]", v) ∉ cercaEventiParams a
    ∧ ("filters[$or][1][descrizione][$containsi]", v) ∉ cercaEventiParams a := by
  constructor <;> intro h <;> rw [cercaEventiParams] at h <;>
    rcases List.mem_append.1 h with h | h
  · rcases List.mem_append.1 h with h | h
    · rcases List.mem_append.1 h with h | h
      · rcases List.mem_append.1 h with h | h
        · simp at h
        · have hk := (mem_strOptParam h).1
          simp at hk
      · have hk := (mem_strOptParam h).1
        simp at hk
    · rw [hst] at h
      simp [searchTextParams] at h
  · have hk := (mem_gratuitoParam h).1
    simp at hk
  · rcases List.mem_append.1 h with h | h
    · rcases List.mem_append.1 h with h | h
      · rcases List.mem_append.1 h with h | h
        · simp at h
        · have hk := (mem_strOptParam h).1
          simp at hk
      · have hk := (mem_strOptParam h).1
        simp at hk
    · rw [hst] at h
      simp [searchTextParams] at h
  · have hk := (mem_gratuitoParam h).1
    simp at hk

theorem not_mem_cercaExperiencesParams_or_of_none {b : CercaExperiencesArgs}
    (hst : b.searchText = none) (v : String) :
    ("filters[$or][0][titolo][$containsi]", v) ∉ cercaExperiencesParams b
    ∧ ("filters[$or][1][descrizione][$containsi]", v) ∉ cercaExperiencesParams b := by
  constructor <;> intro h <;> rw [cercaExperiencesParams] at h <;>
    rcases List.mem_append.1 h with h | h
  · rcases List.mem_append.1 h with h | h
    · rcases List.mem_append.1 h with h | h
      · rcases List.mem_append.1 h with h | h
        · simp at h
        · rw [hst] at h
          simp [searchTextParams] at h
      · have hk := (mem_strOptParam h).1
        simp at hk
    · have hk := (mem_strOptParam h).1
      simp at hk
  · have hk := (mem_gratuitoParam h).1
    simp at hk
  · rcases List.mem_append.1 h with h | h
    · rcases List.mem_append.1 h with h | h
      · rcases List.mem_append.1 h with h | h
        · simp at h
        · rw [hst] at h
          simp [searchTextParams] at h
      · have hk := (mem_strOptParam h).1
        simp at hk
    · have hk := (mem_strOptParam h).1
      simp at hk
  · have hk := (mem_gratuitoParam h).1
    simp at hk

theorem orchSteps_always (model : Nat → ModelStep)
    (h : ∀ n, (model n).toolCalls ≠ []) :
    ∀ fuel done t, orchSteps model fuel done t
      = (if fuel = 0 then t else (model (done + fuel - 1)).text, done + fuel) := by
  intro fuel
  induction fuel with
  | zero => intro done t; simp [orchSteps]
  | succ f ih =>
    intro done t
    have hne : (model done).toolCalls.isEmpty = false := by
      rcases hm : (model done).toolCalls with _ | _
      · exact absurd hm (h done)
      · rfl
    rw [orchSteps]
    simp only [hne, Bool.false_eq_true, if_false]
    rw [ih (done + 1) (model done).text]
    by_cases hf : f = 0
    · subst hf
      simp
    · simp only [hf, if_neg hf, if_neg (Nat.succ_ne_zero f)]
      have h1 : done + 1 + f - 1 = done + (f + 1) - 1 := by omega
      have h2 : done + 1 + f = done + (f + 1) := by omega
      simp [h1, h2]

/-! ### Claims -/

/-- C1, counterexample: the claim that `cerca_eventi`'s emitted date
parameters are equivalent to window overlap is false. For the window
2024-06-01 to 2024-06-10 (a valid range, start before end) the record
running 2024-05-20 to 2024-06-05 partially overlaps the window, yet the
emitted filter set rejects it. -/
theorem c1_overlap_claim_false :
    dateLe "2024-06-01" "2024-06-10" = true
    ∧ overlapsWindow "2024-06-01" "2024-06-10" ⟨"t", "d", "2024-05-20", "2024-06-05"⟩ = true
    ∧ matchesDateFilters
        (cercaEventiParams { dataInizio := some "2024-06-01", dataFine := some "2024-06-10" })
        ⟨"t", "d", "2024-05-20", "2024-06-05"⟩ = false := by
  refine ⟨by decide, by decide, by decide⟩

/-- C1, amended: for every nonempty date pair supplied to `cerca_eventi`,
the emitted date filters select exactly the records contained in the
window (`record.start >= s` and `record.end <= e`), not the overlapping
ones; the today-events fetcher, by contrast, emits the overlap filter for
the degenerate window from today to today. -/
theorem c1_date_filter_semantics (s e : String) (r : EventoFields)
    (hs : s ≠ "") (he : e ≠ "") :
    matchesDateFilters
        (cercaEventiParams { dataInizio := some s, dataFine := some e }) r
      = (dateLe s r.dataInizio && dateLe r.dataFine e)
    ∧ matchesDateFilters (fetchTodayEventsParams s) r = overlapsWindow s s r := by
  constructor
  · simp [cercaEventiParams, matchesDateFilters, strOptParam, searchTextParams,
      gratuitoParam, hs, he, dateParamHolds, limitOr10]
  · simp [fetchTodayEventsParams, matchesDateFilters, dateParamHolds, overlapsWindow]

/-- C1 witness: concrete evaluation of the amended statement. -/
theorem c1_date_filter_semantics_witness :
    matchesDateFilters
      (cercaEventiParams { dataInizio := some "2024-06-01", dataFine := some "2024-06-10" })
      ⟨"t", "d", "2024-06-02", "2024-06-09"⟩ = true
    ∧ matchesDateFilters (fetchTodayEventsParams "2024-06-05")
        ⟨"t", "d", "2024-06-02", "2024-06-09"⟩ = true := by
  have h := c1_date_filter_semantics "2024-06-01" "2024-06-10"
    ⟨"t", "d", "2024-06-02", "2024-06-09"⟩ (by decide) (by decide)
  have h5 := c1_date_filter_semantics "2024-06-05" "2024-06-05"
    ⟨"t", "d", "2024-06-02", "2024-06-09"⟩ (by decide) (by decide)
  exact ⟨by rw [h.1]; decide, by rw [h5.2]; decide⟩

/-- C2, counterexample: the claim that the `cerca_*` result shaper appends
the ellipsis marker iff truncation occurred is false: a three-character
description, far below the 300-character budget, still gets the marker. -/
theorem c2_marker_iff_claim_false :
    (['a', 'b', 'c'] : List Char).length < 300
    ∧ (shapeEvento { titolo := ['t'], descrizione := some ['a', 'b', 'c'] }).descrizione
        = ['a', 'b', 'c'] ++ ellipsis := by
  decide

/-- C2, amended: the `formatEventsForContext` shaper appends the marker iff
the stripped and trimmed description reaches the 200-character budget
(shorter text is emitted unchanged, without a marker); the `cerca_*` tool
shapers instead append the marker unconditionally. -/
theorem c2_marker_emission (d s : List Char) :
    ((jsTrim (stripTags d)).length < 200 → shapeFormatDesc d = jsTrim (stripTags d))
    ∧ (200 ≤ (jsTrim (stripTags d)).length →
        ∃ t, shapeFormatDesc d = t ++ ellipsis ∧ t.length = 200)
    ∧ descShape300 s = s.take 300 ++ ellipsis := by
  refine ⟨fun h => shapeFormatDesc_short h, fun h => ?_, rfl⟩
  exact ⟨(jsTrim (stripTags d)).take 200, shapeFormatDesc_long h,
    by rw [List.length_take]; omega⟩

/-- C2 witness: concrete evaluation of the amended statement on a short
description. -/
theorem c2_marker_emission_witness :
    shapeFormatDesc "<b>ciao</b> mare  ".toList = "ciao mare".toList := by
  have h := (c2_marker_emission "<b>ciao</b> mare  ".toList []).1 (by decide)
  rw [h]
  decide

/-- C3, counterexample: the claim that the description shaper is idempotent
on already-short text is false for the `cerca_*` tool shaper: reshaping a
three-character description appends a second ellipsis marker. -/
theorem c3_idempotence_claim_false :
    (['a', 'b', 'c'] : List Char).length < 300
    ∧ descShape300 (descShape300 ['a', 'b', 'c']) ≠ descShape300 ['a', 'b', 'c'] := by
  decide

/-- C3, amended: the `formatEventsForContext` shaper is idempotent (on all
inputs, in particular on already-short text), and when the stripped and
trimmed text reaches the 200-character budget the output length is exactly
budget plus marker length, with no second marker added by reshaping; the
`cerca_*` tool shaper is not idempotent on short text. -/
theorem c3_format_shaper_idempotent (d : List Char) :
    shapeFormatDesc (shapeFormatDesc d) = shapeFormatDesc d
    ∧ (200 ≤ (jsTrim (stripTags d)).length →
        (shapeFormatDesc d).length = 200 + ellipsis.length) := by
  refine ⟨shapeFormatDesc_idem d, fun h => ?_⟩
  rw [shapeFormatDesc_long h, List.length_append, List.length_take]
  simp [ellipsis]
  omega

/-- C3 witness: concrete evaluation of the amended statement. -/
theorem c3_format_shaper_idempotent_witness :
    shapeFormatDesc (shapeFormatDesc "  ciao  ".toList)
      = shapeFormatDesc "  ciao  ".toList
    ∧ (shapeFormatDesc (List.replicate 250 'a')).length = 200 + ellipsis.length := by
  refine ⟨(c3_format_shaper_idempotent "  ciao  ".toList).1, ?_⟩
  exact (c3_format_shaper_idempotent (List.replicate 250 'a')).2 (by decide)

/-- C4: (spec-modelled orchestrator) with a model stub that always requests
a tool call, the orchestrator makes exactly `maxSteps` model invocations,
never looping further, and returns the last available text (the text of
the final invocation; empty when the cap is zero). -/
theorem c4_step_cap (model : Nat → ModelStep)
    (htools : ∀ n, (model n).toolCalls ≠ []) (maxSteps : Nat) :
    (runOrchestrator model maxSteps).2 = maxSteps
    ∧ (∀ m, maxSteps = m + 1 →
        (runOrchestrator model maxSteps).1 = (model m).text)
    ∧ (maxSteps = 0 → (runOrchestrator model maxSteps).1 = "") := by
  have h := orchSteps_always model htools maxSteps 0 ""
  refine ⟨?_, fun m hm => ?_, fun hm => ?_⟩
  · simp only [runOrchestrator, h]
    omega
  · subst hm
    simp only [runOrchestrator, h]
    have h1 : 0 + (m + 1) - 1 = m := by omega
    simp [h1]
  · subst hm
    simp only [runOrchestrator, h]
    simp

/-- C4 witness: a stub that always calls a tool, run with the observed cap
of 5: exactly 5 invocations, and the fifth invocation's text comes back. -/
theorem c4_step_cap_witness :
    (runOrchestrator (fun n => ⟨"t" ++ toString n, [⟨"cerca_eventi"⟩]⟩) 5).2 = 5
    ∧ (runOrchestrator (fun n => ⟨"t" ++ toString n, [⟨"cerca_eventi"⟩]⟩) 5).1 = "t4" := by
  have h := c4_step_cap (fun n => ⟨"t" ++ toString n, [⟨"cerca_eventi"⟩]⟩)
    (fun n => by simp) 5
  exact ⟨h.1, by rw [h.2.1 4 rfl]; rfl⟩

/-- C5, counterexample: the claim that a non-2xx CMS status or a transport
failure is never silently coerced into an empty result list is false for
the today-events client: a 500 response carrying one record and a thrown
transport failure both come back as the empty list, which the formatter
then renders exactly like zero records found. -/
theorem c5_error_coercion_claim_false :
    fetchTodayEventsM (.response 500 (some [{ titolo := "Sagra" }])) = []
    ∧ fetchTodayEventsM (.transportFailure "fetch failed") = []
    ∧ fetchTodayEventsM (.response 200 (some [])) = []
    ∧ formatEventsForContext "oggi" []
        = "Non ci sono eventi in programma per oggi." := by
  exact ⟨rfl, rfl, rfl, rfl⟩

/-- C5, amended: in the tool-augmented variant, `strapiQuery` fails with an
error carrying the status on every non-2xx response, propagates transport
failures, and never coerces a failure into a success; the today-events
variant's `fetchTodayEvents`, however, coerces both failure kinds into the
empty list. -/
theorem c5_error_handling (st : Nat) (body : List StrapiEvent)
    (optBody : Option (List StrapiEvent)) (err : String)
    (h : responseOk st = false) :
    strapiQueryM (.response st body) = .error ("Strapi API error: " ++ toString st)
    ∧ strapiQueryM (α := List StrapiEvent) (.transportFailure err) = .error err
    ∧ (∀ l, strapiQueryM (.response st body) ≠ .ok l)
    ∧ fetchTodayEventsM (.response st optBody) = []
    ∧ fetchTodayEventsM (.transportFailure err) = [] := by
  refine ⟨by simp [strapiQueryM, h], rfl, fun l => by simp [strapiQueryM, h],
    by simp [fetchTodayEventsM, h], rfl⟩

/-- C5 witness: concrete evaluation at status 500. -/
theorem c5_error_handling_witness :
    strapiQueryM (.response 500 ([] : List StrapiEvent))
      = .error "Strapi API error: 500"
    ∧ fetchTodayEventsM (.response 500 (some [])) = [] := by
  have h := c5_error_handling 500 [] (some []) "e" (by decide)
  exact ⟨h.1, h.2.2.2.1⟩

/-- C6: a boolean filter (`gratuito`) appears in the emitted parameter set
iff it is explicitly set; explicitly `false` emits
`filters[gratuito][$eq]=false`, observably different from omission; same
for the experiences builder. -/
theorem c6_boolean_tristate (a : CercaEventiArgs) (b : CercaExperiencesArgs) :
    ((∃ v, ("filters[gratuito][$eq]", v) ∈ cercaEventiParams a) ↔ a.gratuito ≠ none)
    ∧ (a.gratuito = some false →
        ("filters[gratuito][$eq]", "false") ∈ cercaEventiParams a)
    ∧ (a.gratuito = some true →
        ("filters[gratuito][$eq]", "true") ∈ cercaEventiParams a)
    ∧ ((∃ v, ("filters[gratuito][$eq]", v) ∈ cercaExperiencesParams b) ↔ b.gratuito ≠ none)
    ∧ (b.gratuito = some false →
        ("filters[gratuito][$eq]", "false") ∈ cercaExperiencesParams b) := by
  refine ⟨⟨fun hv => ?_, fun h => ?_⟩, fun h => ?_, fun h => ?_, ⟨fun hv => ?_, fun h => ?_⟩, fun h => ?_⟩
  · obtain ⟨v, hv⟩ := hv
    exact (mem_gratuitoParam (mem_cercaEventiParams_gratuito.1 hv)).2
  · rcases hg : a.gratuito with _ | bv
    · exact absurd hg h
    · exact ⟨if bv then "true" else "false",
        mem_cercaEventiParams_gratuito.2 (by simp [gratuitoParam, hg])⟩
  · exact mem_cercaEventiParams_gratuito.2 (by simp [gratuitoParam, h])
  · exact mem_cercaEventiParams_gratuito.2 (by simp [gratuitoParam, h])
  · obtain ⟨v, hv⟩ := hv
    exact (mem_gratuitoParam (mem_cercaExperiencesParams_gratuito.1 hv)).2
  · rcases hg : b.gratuito with _ | bv
    · exact absurd hg h
    · exact ⟨if bv then "true" else "false",
        mem_cercaExperiencesParams_gratuito.2 (by simp [gratuitoParam, hg])⟩
  · exact mem_cercaExperiencesParams_gratuito.2 (by simp [gratuitoParam, h])

/-- C6 witness: concrete evaluation for unset, `false`, and `true`. -/
theorem c6_boolean_tristate_witness :
    ¬(∃ v, ("filters[gratuito][$eq]", v) ∈ cercaEventiParams {})
    ∧ ("filters[gratuito][$eq]", "false")
        ∈ cercaEventiParams { gratuito := some false }
    ∧ ("filters[gratuito][$eq]", "true")
        ∈ cercaEventiParams { gratuito := some true } := by
  refine ⟨fun hv => ?_, ?_, ?_⟩
  · exact ((c6_boolean_tristate {} {}).1.1 hv) rfl
  · exact (c6_boolean_tristate { gratuito := some false } {}).2.1 rfl
  · exact (c6_boolean_tristate { gratuito := some true } {}).2.2.1 rfl

/-- C7: a truthy `searchText` makes the query builders (`cerca_eventi` and
`cerca_experiences`) emit the two `$or`/`$containsi` parameters over titolo
and descrizione, whose semantics is a case-insensitive substring
disjunction (a record matching only in its description is selected); with
`searchText` absent no such parameters are emitted by either builder. -/
theorem c7_searchtext_or (a : CercaEventiArgs) (b : CercaExperiencesArgs)
    (q : String) (r : EventoFields) :
    (a.searchText = some q → q ≠ "" →
      ("filters[$or][0][titolo][$containsi]", q) ∈ cercaEventiParams a
      ∧ ("filters[$or][1][descrizione][$containsi]", q) ∈ cercaEventiParams a
      ∧ matchesSearchFilters (cercaEventiParams a) r
          = (containsiB r.titolo q || containsiB r.descrizione q))
    ∧ (a.searchText = none →
        ∀ v, ("filters[$or][0][titolo][$containsi]", v) ∉ cercaEventiParams a
          ∧ ("filters[$or][1][descrizione][$containsi]", v) ∉ cercaEventiParams a)
    ∧ (b.searchText = some q → q ≠ "" →
      ("filters[$or][0][titolo][$containsi]", q) ∈ cercaExperiencesParams b
      ∧ ("filters[$or][1][descrizione][$containsi]", q) ∈ cercaExperiencesParams b
      ∧ matchesSearchFilters (cercaExperiencesParams b) r
          = (containsiB r.titolo q || containsiB r.descrizione q))
    ∧ (b.searchText = none →
        ∀ v, ("filters[$or][0][titolo][$containsi]", v) ∉ cercaExperiencesParams b
          ∧ ("filters[$or][1][descrizione][$containsi]", v) ∉ cercaExperiencesParams b) := by
  refine ⟨?_, ?_, ?_, ?_⟩
  · intro hq hne
    obtain ⟨d1, d2, st, g, lim⟩ := a
    simp only at hq
    subst hq
    have hmemS : ∀ kv ∈ searchTextParams (some q),
        kv ∈ cercaEventiParams ⟨d1, d2, some q, g, lim⟩ := by
      intro kv hkv
      rw [cercaEventiParams]
      exact List.mem_append.2 (Or.inl (List.mem_append.2 (Or.inr hkv)))
    refine ⟨hmemS _ (by simp [searchTextParams, hne]),
      hmemS _ (by simp [searchTextParams, hne]), ?_⟩
    have hA := filterMap_orBranch_strOpt r "filters[dataInizio][$gte]" d1
      (by decide) (by decide)
    have hB := filterMap_orBranch_strOpt r "filters[dataFine][$lte]" d2
      (by decide) (by decide)
    have hG := filterMap_orBranch_gratuito r g
    have hS : (searchTextParams (some q)).filterMap (orBranchHolds r)
        = [containsiB r.titolo q, containsiB r.descrizione q] := by
      simp [searchTextParams, hne, orBranchHolds]
    rw [matchesSearchFilters, cercaEventiParams]
    simp only [List.filterMap_append, hA, hB, hG, hS]
    simp [orBranchHolds]
  · intro hst v
    exact not_mem_cercaEventiParams_or_of_none hst v
  · intro hq hne
    obtain ⟨st, cat, tip, g, lim⟩ := b
    simp only at hq
    subst hq
    have hmemS : ∀ kv ∈ searchTextParams (some q),
        kv ∈ cercaExperiencesParams ⟨some q, cat, tip, g, lim⟩ := by
      intro kv hkv
      rw [cercaExperiencesParams]
      exact List.mem_append.2 (Or.inl (List.mem_append.2 (Or.inl
        (List.mem_append.2 (Or.inl (List.mem_append.2 (Or.inr hkv)))))))
    refine ⟨hmemS _ (by simp [searchTextParams, hne]),
      hmemS _ (by simp [searchTextParams, hne]), ?_⟩
    have hC := filterMap_orBranch_strOpt r
      "filters[categoria_cosafare][titolo][$containsi]" cat (by decide) (by decide)
    have hT := filterMap_orBranch_strOpt r
      "filters[tipologia_experience][titolo][$containsi]" tip (by decide) (by decide)
    have hG := filterMap_orBranch_gratuito r g
    have hS : (searchTextParams (some q)).filterMap (orBranchHolds r)
        = [containsiB r.titolo q, containsiB r.descrizione q] := by
      simp [searchTextParams, hne, orBranchHolds]
    rw [matchesSearchFilters, cercaExperiencesParams]
    simp only [List.filterMap_append, hC, hT, hG, hS]
    simp [orBranchHolds]
  · intro hst v
    exact not_mem_cercaExperiencesParams_or_of_none hst v

/-- C7 witness: concrete evaluation for both builders; the records match
only in their description, with different letter case, and are still
selected. -/
theorem c7_searchtext_or_witness :
    ("filters[$or][0][titolo][$containsi]", "MARE")
      ∈ cercaEventiParams { searchText := some "MARE" }
    ∧ matchesSearchFilters (cercaEventiParams { searchText := some "MARE" })
        ⟨"Concerto", "in riva al mare", "", ""⟩ = true
    ∧ ("filters[$or][0][titolo][$containsi]", "MARE") ∉ cercaEventiParams {}
    ∧ ("filters[$or][1][descrizione][$containsi]", "MARE")
        ∈ cercaExperiencesParams { searchText := some "MARE" }
    ∧ matchesSearchFilters (cercaExperiencesParams { searchText := some "MARE" })
        ⟨"Tour", "passeggiata sul mare", "", ""⟩ = true
    ∧ ("filters[$or][1][descrizione][$containsi]", "MARE")
        ∉ cercaExperiencesParams {} := by
  have h := (c7_searchtext_or { searchText := some "MARE" } {} "MARE"
    ⟨"Concerto", "in riva al mare", "", ""⟩).1 rfl (by decide)
  have hnone := (c7_searchtext_or {} {} "MARE"
    ⟨"Concerto", "in riva al mare", "", ""⟩).2.1 rfl "MARE"
  have hx := (c7_searchtext_or {} { searchText := some "MARE" } "MARE"
    ⟨"Tour", "passeggiata sul mare", "", ""⟩).2.2.1 rfl (by decide)
  have hxnone := (c7_searchtext_or {} {} "MARE"
    ⟨"Tour", "passeggiata sul mare", "", ""⟩).2.2.2 rfl "MARE"
  exact ⟨h.1, by rw [h.2.2]; decide, hnone.1,
    hx.2.1, by rw [hx.2.2]; decide, hxnone.2⟩

/-- C8: the chat action returns status 200 with the generated text on
success; on any internal failure it returns the fixed Italian fallback
string, a non-200 status (500), and an `error` field carrying the short
diagnostic string extracted from the thrown value, not the raw exception. -/
theorem c8_action_responses (t : String) (tcs : List ToolCallRec) (e : JsThrown) :
    actionResult (.ok (t, tcs))
      = { status := 200, text := t, toolCalls := tcs, error := none }
    ∧ (actionResult (.error e)).status = 500
    ∧ (actionResult (.error e)).status ≠ 200
    ∧ (actionResult (.error e)).text
        = "Mi dispiace, si è verificato un errore. Riprova."
    ∧ (actionResult (.error e)).toolCalls = []
    ∧ (actionResult (.error e)).error = some (errMessage e)
    ∧ (∀ m, e = .errorObj m → errMessage e = m)
    ∧ (e = .nonError → errMessage e = "Unknown error") := by
  refine ⟨rfl, rfl, ?_, rfl, rfl, rfl, fun m hm => ?_, fun hm => ?_⟩
  · exact (by decide : (500 : Nat) ≠ 200)
  · rw [hm]
    rfl
  · rw [hm]
    rfl

/-- C8 witness: concrete evaluation on a success and on a thrown `Error`. -/
theorem c8_action_responses_witness :
    actionResult (.ok ("Ciao!", []))
      = { status := 200, text := "Ciao!", toolCalls := [], error := none }
    ∧ (actionResult (.error (.errorObj "Strapi API error: 500"))).status = 500
    ∧ (actionResult (.error (.errorObj "Strapi API error: 500"))).error
        = some "Strapi API error: 500" := by
  have h := c8_action_responses "Ciao!" [] (.errorObj "Strapi API error: 500")
  exact ⟨h.1, h.2.1, by rw [h.2.2.2.2.2.1, h.2.2.2.2.2.2.1 _ rfl]⟩

/-- C9: when a CMS record has no `descrizione`, the shaped result of the
search tools carries the literal 12-character string `"undefined..."`
(JS concatenation of the coerced `undefined` with the marker), for both
the eventi and the punti-interesse shapers. -/
theorem c9_undefined_descrizione (e : EventoRaw) (p : PoiRaw)
    (he : e.descrizione = none) (hp : p.descrizione = none) :
    (shapeEvento e).descrizione = "undefined...".toList
    ∧ (shapeEvento e).descrizione.length = 12
    ∧ (shapePoi p).descrizione = "undefined...".toList
    ∧ (shapePoi p).descrizione.length = 12 := by
  refine ⟨?_, ?_, ?_, ?_⟩ <;>
    simp [shapeEvento, shapePoi, he, hp, shapeDescrOpt, undefinedChars, ellipsis]

/-- C9 witness: concrete records without a description. -/
theorem c9_undefined_descrizione_witness :
    (shapeEvento { titolo := ['e'], descrizione := none }).descrizione
      = "undefined...".toList
    ∧ (shapePoi { titolo := ['p'], descrizione := none }).descrizione.length = 12 := by
  have h := c9_undefined_descrizione { titolo := ['e'], descrizione := none }
    { titolo := ['p'], descrizione := none } rfl rfl
  exact ⟨h.1, h.2.2.2⟩

/-- C10, counterexample: the claim that `pagination[pageSize]` equals the
supplied limit when it is a positive number and `"10"` otherwise is false:
the negative limit -5 is not positive, yet the builder emits `"-5"`, not
`"10"` (JS `limit || 10` only replaces falsy values). -/
theorem c10_pagesize_claim_false :
    ("pagination[pageSize]", "-5") ∈ cercaExperiencesParams { limit := some (-5) }
    ∧ ("pagination[pageSize]", "10") ∉ cercaExperiencesParams { limit := some (-5) }
    ∧ ¬(0 < (-5 : Int)) := by
  refine ⟨by decide, by decide, by decide⟩

/-- C10, amended: the experiences, strutture and offerte builders always
emit `filters[attiva][$eq]=true`, the eventi and punti-interesse builders
never do; every one of the three always emits `pagination[pageSize]` with
value `String(limit || 10)`, which is the supplied limit whenever it is a
nonzero number and `"10"` when it is absent or zero. -/
theorem c10_attiva_and_pagesize (a : CercaEventiArgs) (p : CercaPoiArgs)
    (b : CercaExperiencesArgs) (c : CercaStruttureArgs) (d : CercaOfferteArgs) :
    ("filters[attiva][$eq]", "true") ∈ cercaExperiencesParams b
    ∧ ("filters[attiva][$eq]", "true") ∈ cercaStruttureParams c
    ∧ ("filters[attiva][$eq]", "true") ∈ cercaOfferteParams d
    ∧ (∀ v, ("filters[attiva][$eq]", v) ∉ cercaEventiParams a)
    ∧ (∀ v, ("filters[attiva][$eq]", v) ∉ cercaPuntiInteresseParams p)
    ∧ ("pagination[pageSize]", toString (limitOr10 b.limit)) ∈ cercaExperiencesParams b
    ∧ ("pagination[pageSize]", toString (limitOr10 c.limit)) ∈ cercaStruttureParams c
    ∧ ("pagination[pageSize]", toString (limitOr10 d.limit)) ∈ cercaOfferteParams d
    ∧ ((b.limit = none ∨ b.limit = some 0) → toString (limitOr10 b.limit) = "10")
    ∧ (∀ n : Int, b.limit = some n → n ≠ 0 → toString (limitOr10 b.limit) = toString n) := by
  refine ⟨?_, ?_, ?_, fun v => not_mem_cercaEventiParams_attiva v a,
    fun v => not_mem_cercaPuntiInteresseParams_attiva v p, ?_, ?_, ?_, fun h => ?_, fun n hn hnz => ?_⟩
  · rw [cercaExperiencesParams]
    simp
  · rw [cercaStruttureParams]
    simp
  · rw [cercaOfferteParams]
    simp
  · rw [cercaExperiencesParams]
    simp
  · rw [cercaStruttureParams]
    simp
  · rw [cercaOfferteParams]
    simp
  · rcases h with h | h <;> rw [h] <;> rfl
  · rw [hn, limitOr10, if_neg hnz]

/-- C10 witness: concrete evaluation at an unset and a nonzero limit. -/
theorem c10_attiva_and_pagesize_witness :
    ("filters[attiva][$eq]", "true") ∈ cercaExperiencesParams {}
    ∧ ("filters[attiva][$eq]", "x") ∉ cercaEventiParams {}
    ∧ ("pagination[pageSize]", "10") ∈ cercaExperiencesParams {}
    ∧ ("pagination[pageSize]", "7") ∈ cercaExperiencesParams { limit := some 7 } := by
  have h0 := c10_attiva_and_pagesize {} {} {} {} {}
  have h7 := c10_attiva_and_pagesize {} {} { limit := some 7 } {} {}
  refine ⟨h0.1, h0.2.2.2.1 "x", ?_, ?_⟩
  · have := h0.2.2.2.2.2.1
    rwa [h0.2.2.2.2.2.2.2.2.1 (Or.inl rfl)] at this
  · have := h7.2.2.2.2.2.1
    rwa [h7.2.2.2.2.2.2.2.2.2 7 rfl (by decide)] at this

end Cesenatico
